import Mathlib

/-
Shallow embedding of src/Code/Lib/bsp/CANOpenNode/STM32HAL/CO_driver.c.

Machine integers are modelled as Nat with explicit reduction modulo 2^16
(uint16_t) where the C code can overflow or truncate.  External hardware
calls (HAL_CAN_Start, HAL_CAN_AddTxMessage, HAL_CAN_GetTxMailboxesFreeLevel,
HAL_CAN_Init, HAL_CAN_ActivateNotification) are modelled as boolean oracle
inputs saying whether the call succeeded / a mailbox was free.  Calls into
the external emergency collaborator (CO_errorReport / CO_errorReset) are
modelled as an event trace returned by each operation, and the query
CO_isError is a boolean input.
-/

namespace CODriver

/-- Return codes of the driver interface (CO_ReturnError_t). -/
inductive CO_ReturnError where
  | CO_ERROR_NO
  | CO_ERROR_ILLEGAL_ARGUMENT
  | CO_ERROR_ILLEGAL_BAUDRATE
  | CO_ERROR_TX_OVERFLOW
  | CO_ERROR_HAL
deriving Repr, DecidableEq

/-- Bits of the HAL error bitmask used by CO_CANverifyErrors.  EWG, EPV, BOF
and the two receive-FIFO overrun bits carry the values of the STM32 HAL
header. -/
def HAL_CAN_ERROR_EWG : Nat := 1

/-- Error-passive bit of the HAL error bitmask. -/
def HAL_CAN_ERROR_EPV : Nat := 2

/-- Bus-off bit of the HAL error bitmask. -/
def HAL_CAN_ERROR_BOF : Nat := 4

/-- Receive FIFO 0 overrun bit of the HAL error bitmask. -/
def HAL_CAN_ERROR_RX_FOV0 : Nat := 512

/-- Receive FIFO 1 overrun bit of the HAL error bitmask. -/
def HAL_CAN_ERROR_RX_FOV1 : Nat := 1024

/-- Modelled from the spec: the explicit "no error" indication tested by
CO_CANverifyErrors is a distinct bit of the error bitmask (spec 4.3: "the
explicit no-error bit (clears warning if set)").  The HAL header defining
the numeric constant HAL_CAN_ERROR_NONE is not among the sources, so the
bit is taken as some fixed bit position distinct from the other error
bits. -/
def HAL_CAN_ERROR_NONE : Nat := 1073741824

/-- Identifiers of the emergency error conditions (CO_EM_t).  These are
opaque tags owned by the external emergency collaborator; only their
identity matters here. -/
def CO_EM_CAN_BUS_WARNING : Nat := 1

/-- Emergency id: CAN transmit bus passive. -/
def CO_EM_CAN_TX_BUS_PASSIVE : Nat := 7

/-- Emergency id: CAN transmit bus off. -/
def CO_EM_CAN_TX_BUS_OFF : Nat := 18

/-- Emergency id: CAN receive buffer overflow. -/
def CO_EM_CAN_RXB_OVERFLOW : Nat := 19

/-- Emergency id: CAN transmit buffer overflow. -/
def CO_EM_CAN_TX_OVERFLOW : Nat := 20

/-- Emergency id: synchronous TPDO outside the synchronous window. -/
def CO_EM_TPDO_OUTSIDE_WINDOW : Nat := 21

/-- Emergency error-code classification constants (CO_EM_errorCode_t),
opaque to this layer. -/
def CO_EMC_NO_ERROR : Nat := 0

/-- Classification: communication error. -/
def CO_EMC_COMMUNICATION : Nat := 33024

/-- Classification: CAN overrun. -/
def CO_EMC_CAN_OVERRUN : Nat := 33040

/-- Classification: CAN error passive. -/
def CO_EMC_CAN_PASSIVE : Nat := 33056

/-- Classification: bus off recovered. -/
def CO_EMC_BUS_OFF_RECOVERED : Nat := 33088

/-- Received CAN message as seen by the driver (CO_CANrxMsg_t): the HAL
receive header plus copied DLC/ident fields. -/
structure CO_CANrxMsg where
  StdId : Nat
  RTR : Nat
  DLC : Nat
  data : List Nat
deriving Repr, DecidableEq

/-- Receive buffer entry (CO_CANrx_t).  The handler pointer pFunct and the
opaque object are modelled as tags; pFunct = none models a NULL handler. -/
structure CO_CANrx where
  ident : Nat
  mask : Nat
  object : Nat
  pFunct : Option Nat
deriving Repr, DecidableEq

/-- Record of one synchronous handler invocation performed by the receive
interrupt: which handler ran, with which opaque object and message. -/
structure RxInvocation where
  pFunct : Nat
  object : Nat
  msg : CO_CANrxMsg
deriving Repr, DecidableEq

/-- Transmit buffer entry (CO_CANtx_t). -/
structure CO_CANtx where
  ident : Nat
  DLC : Nat
  data : List Nat
  bufferFull : Bool
  syncFlag : Bool
deriving Repr, DecidableEq

instance : Inhabited CO_CANtx := ⟨⟨0, 0, [], false, false⟩⟩

/-- Module state (CO_CANmodule_t).  The array sizes rxSize/txSize are the
lengths of the two lists; the hardware handle and the emergency object
pointer are external and carry no modelled state. -/
structure CO_CANmodule where
  rxArray : List CO_CANrx
  txArray : List CO_CANtx
  CANnormal : Bool
  useCANrxFilters : Bool
  bufferInhibitFlag : Bool
  firstCANtxMessage : Bool
  CANtxCount : Nat
  errOld : Nat
deriving Repr, DecidableEq

/-- Calls made into the external emergency collaborator. -/
inductive EmEvent where
  | report (errorBit : Nat) (errorCode : Nat) (infoCode : Nat)
  | reset (errorBit : Nat) (infoCode : Nat)
deriving Repr, DecidableEq

/-- HAL transmit header (CAN_TxHeaderTypeDef), as filled by
prepareTxHeader. -/
structure CAN_TxHeader where
  ExtId : Nat
  DLC : Nat
  StdId : Nat
  RTR : Nat
deriving Repr, DecidableEq

/-- prepareTxHeader (CO_driver.c lines 80-87): maps a transmit buffer to
the HAL header. -/
def prepareTxHeader (buffer : CO_CANtx) : CAN_TxHeader :=
  { ExtId := 0, DLC := buffer.DLC, StdId := buffer.ident >>> 2,
    RTR := buffer.ident &&& 2 }

/-- Packing of a received frame (CO_CANinterrupt_Rx line 579):
(uint16_t)(StdId << 2) | (uint16_t)RTR. -/
def rxPack (stdId rtr : Nat) : Nat :=
  ((stdId * 4) % 65536) ||| (rtr % 65536)

/-- Receive match test (CO_CANinterrupt_Rx line 580):
((msg ^ ident) & mask) == 0. -/
def rxMatch (msg : Nat) (e : CO_CANrx) : Bool :=
  ((msg ^^^ e.ident) &&& e.mask) == 0

/-- The scan loop of CO_CANinterrupt_Rx (lines 577-586): walk the rxArray
in index order and stop at the first entry matching the packed frame,
returning its index and contents. -/
def rxScan (msg : Nat) : List CO_CANrx → Option (Nat × CO_CANrx)
  | [] => none
  | e :: rest =>
      if rxMatch msg e then some (0, e)
      else (rxScan msg rest).map (fun p => (p.1 + 1, p.2))

/-- CO_CANinterrupt_Rx (lines 562-625): dispatch a received frame.  The
returned list is the trace of handler invocations (lines 589-592: the
handler is called once when a match was found and its pFunct is not
NULL). -/
def CO_CANinterrupt_Rx (rxArray : List CO_CANrx) (m : CO_CANrxMsg) :
    List RxInvocation :=
  match rxScan (rxPack m.StdId m.RTR) rxArray with
  | some (_, e) =>
      match e.pFunct with
      | some f => [⟨f, e.object, m⟩]
      | none => []
  | none => []

/-- The transmit slot a buffer pointer &txArray[i] refers to. -/
def txSlot (l : List CO_CANtx) (i : Nat) : CO_CANtx :=
  l.getD i default

/-- Number of transmit slots whose bufferFull flag is set. -/
def fullCount : List CO_CANtx → Nat
  | [] => 0
  | b :: rest => (if b.bufferFull then 1 else 0) + fullCount rest

/-- Number of transmit slots with both bufferFull and syncFlag set. -/
def syncFullCount : List CO_CANtx → Nat
  | [] => 0
  | b :: rest => (if b.bufferFull ∧ b.syncFlag then 1 else 0) + syncFullCount rest

/-- CO_CANsend (lines 395-442).  bufIdx is the index of the transmit slot
the buffer pointer refers to; mailboxFree models
HAL_CAN_GetTxMailboxesFreeLevel > 0 and halOk the success of
HAL_CAN_AddTxMessage.  Returns the new module state, the return code and
the emergency events issued. -/
def CO_CANsend (mod : CO_CANmodule) (bufIdx : Nat) (mailboxFree halOk : Bool) :
    CO_CANmodule × CO_ReturnError × List EmEvent :=
  let buffer := txSlot mod.txArray bufIdx
  let events : List EmEvent :=
    if buffer.bufferFull then
      if mod.firstCANtxMessage then []
      else [.report CO_EM_CAN_TX_OVERFLOW CO_EMC_CAN_OVERRUN buffer.ident]
    else []
  let err : CO_ReturnError :=
    if buffer.bufferFull then .CO_ERROR_TX_OVERFLOW else .CO_ERROR_NO
  if mod.CANtxCount = 0 ∧ mailboxFree = true then
    ({ mod with bufferInhibitFlag := buffer.syncFlag },
     if halOk then err else .CO_ERROR_HAL,
     events)
  else
    ({ mod with
        txArray := mod.txArray.set bufIdx { buffer with bufferFull := true },
        CANtxCount := (mod.CANtxCount + 1) % 65536 },
     err, events)

/-- The deletion loop of CO_CANclearPendingSyncPDOs (lines 468-481): walk
the whole txArray; every entry with bufferFull and syncFlag is cleared and
CANtxCount decremented (uint16_t arithmetic).  The boolean records whether
any entry was cleared (the C code assigns tpdoDeleted = 2 there). -/
def clearSyncLoop : List CO_CANtx → Nat → List CO_CANtx × Nat × Bool
  | [], c => ([], c, false)
  | b :: rest, c =>
      if b.bufferFull ∧ b.syncFlag then
        let r := clearSyncLoop rest ((c + 65535) % 65536)
        ({ b with bufferFull := false } :: r.1, r.2.1, true)
      else
        let r := clearSyncLoop rest c
        (b :: r.1, r.2.1, r.2.2)

/-- Action of the deletion loop on a single entry. -/
def clearSyncEntry (b : CO_CANtx) : CO_CANtx :=
  if b.bufferFull ∧ b.syncFlag then { b with bufferFull := false } else b

/-- CO_CANclearPendingSyncPDOs (lines 446-488).  tpdoDeleted becomes 1 when
the inhibit flag was aborted, and is overwritten with 2 when any queued
entry is cleared; one report is issued when it is nonzero. -/
def CO_CANclearPendingSyncPDOs (mod : CO_CANmodule) :
    CO_CANmodule × List EmEvent :=
  let del1 : Nat := if mod.bufferInhibitFlag then 1 else 0
  let res :=
    if mod.CANtxCount ≠ 0 then clearSyncLoop mod.txArray mod.CANtxCount
    else (mod.txArray, mod.CANtxCount, false)
  let tpdoDeleted : Nat := if res.2.2 then 2 else del1
  ({ mod with bufferInhibitFlag := false, txArray := res.1,
              CANtxCount := res.2.1 },
   if tpdoDeleted ≠ 0 then
     [.report CO_EM_TPDO_OUTSIDE_WINDOW CO_EMC_COMMUNICATION tpdoDeleted]
   else [])

/-- Index of the first transmit slot whose bufferFull flag is set, as found
by the scan loop of CO_CANpolling_Tx (lines 647-678). -/
def firstFullIdx : List CO_CANtx → Option Nat
  | [] => none
  | b :: rest => if b.bufferFull then some 0 else (firstFullIdx rest).map (· + 1)

/-- CO_CANpolling_Tx (lines 628-691).  mailboxFree models
HAL_CAN_GetTxMailboxesFreeLevel > 0 and halOk the success of
HAL_CAN_AddTxMessage.  The second component records the index of the slot
handed to hardware, if any. -/
def CO_CANpolling_Tx (mod : CO_CANmodule) (mailboxFree halOk : Bool) :
    CO_CANmodule × Option Nat :=
  if mailboxFree = true then
    let mod1 := { mod with firstCANtxMessage := false, bufferInhibitFlag := false }
    if 0 < mod1.CANtxCount then
      match firstFullIdx mod1.txArray with
      | some i =>
          let buffer := txSlot mod1.txArray i
          let mod2 := { mod1 with bufferInhibitFlag := buffer.syncFlag }
          if halOk then
            ({ mod2 with
                txArray := mod2.txArray.set i { buffer with bufferFull := false },
                CANtxCount := (mod2.CANtxCount + 65535) % 65536 }, some i)
          else (mod2, some i)
      | none => ({ mod1 with CANtxCount := 0 }, none)
    else (mod1, none)
  else (mod, none)

/-- CO_CANsetNormalMode (lines 132-155).  startOk models HAL_CAN_Start
succeeding, notifOk models HAL_CAN_ActivateNotification succeeding.
CANnormal is set unconditionally (line 153). -/
def CO_CANsetNormalMode (mod : CO_CANmodule) (startOk notifOk : Bool) :
    CO_CANmodule × CO_ReturnError :=
  let err1 : CO_ReturnError := if startOk then .CO_ERROR_NO else .CO_ERROR_HAL
  let err2 : CO_ReturnError := if notifOk then err1 else .CO_ERROR_HAL
  ({ mod with CANnormal := true }, err2)

/-- Bit-rate to prescaler table of CO_CANmodule_init (lines 241-269); none
models the default branch returning CO_ERROR_ILLEGAL_BAUDRATE. -/
def supportedPrescaler (bitRate : Nat) : Option Nat :=
  if bitRate = 1000 then some 5
  else if bitRate = 500 then some 10
  else if bitRate = 250 then some 20
  else if bitRate = 125 then some 40
  else if bitRate = 100 then some 50
  else if bitRate = 50 then some 100
  else if bitRate = 20 then some 250
  else if bitRate = 10 then some 500
  else none

/-- CO_CANmodule_init (lines 158-280).  NULL pointers are modelled as
moduleNull / handleNull flags and Option-typed arrays; the argument check
of line 170 tests only CANmodule, rxArray and txArray.  halInitOk models
HAL_CAN_Init succeeding.  The second component is the module state as left
by the call (none when the call returned before touching it). -/
def CO_CANmodule_init (moduleNull handleNull : Bool)
    (rxArr : Option (List CO_CANrx)) (txArr : Option (List CO_CANtx))
    (bitRate : Nat) (halInitOk : Bool) :
    CO_ReturnError × Option CO_CANmodule :=
  if moduleNull = true ∨ rxArr = none ∨ txArr = none then
    (.CO_ERROR_ILLEGAL_ARGUMENT, none)
  else
    let mod : CO_CANmodule :=
      { rxArray := (rxArr.getD []).map (fun e => { e with ident := 0, pFunct := none }),
        txArray := (txArr.getD []).map (fun b => { b with bufferFull := false }),
        CANnormal := false, useCANrxFilters := false, bufferInhibitFlag := false,
        firstCANtxMessage := true, CANtxCount := 0, errOld := 0 }
    match supportedPrescaler bitRate with
    | none => (.CO_ERROR_ILLEGAL_BAUDRATE, some mod)
    | some _ =>
        if halInitOk then (.CO_ERROR_NO, some mod)
        else (.CO_ERROR_HAL, some mod)

/-- CO_CANverifyErrors (lines 492-558).  halErrorCode is the value read
from the HAL handle's ErrorCode register; passiveWasSet models the query
CO_isError(em, CO_EM_CAN_TX_BUS_PASSIVE).  Returns the new module state
and the trace of emergency report/reset calls, in program order. -/
def CO_CANverifyErrors (mod : CO_CANmodule) (halErrorCode : Nat)
    (passiveWasSet : Bool) : CO_CANmodule × List EmEvent :=
  if mod.errOld ≠ halErrorCode then
    let evs1 : List EmEvent :=
      if halErrorCode &&& HAL_CAN_ERROR_BOF ≠ 0 then
        [.report CO_EM_CAN_TX_BUS_OFF CO_EMC_BUS_OFF_RECOVERED halErrorCode]
      else
        [.reset CO_EM_CAN_TX_BUS_OFF halErrorCode]
        ++ (if halErrorCode &&& HAL_CAN_ERROR_EWG ≠ 0 then
              [.report CO_EM_CAN_BUS_WARNING CO_EMC_NO_ERROR halErrorCode]
            else [])
        ++ (if halErrorCode &&& HAL_CAN_ERROR_EPV ≠ 0 then
              (if mod.firstCANtxMessage then []
               else [.report CO_EM_CAN_TX_BUS_PASSIVE CO_EMC_CAN_PASSIVE halErrorCode])
            else
              (if passiveWasSet then
                 [.reset CO_EM_CAN_TX_BUS_PASSIVE halErrorCode,
                  .reset CO_EM_CAN_TX_OVERFLOW halErrorCode]
               else []))
        ++ (if halErrorCode &&& HAL_CAN_ERROR_NONE ≠ 0 then
              [.reset CO_EM_CAN_BUS_WARNING halErrorCode]
            else [])
    let evs2 : List EmEvent :=
      if halErrorCode &&& HAL_CAN_ERROR_RX_FOV0 ≠ 0 ∨
         halErrorCode &&& HAL_CAN_ERROR_RX_FOV1 ≠ 0 then
        [.report CO_EM_CAN_RXB_OVERFLOW CO_EMC_CAN_OVERRUN halErrorCode]
      else []
    ({ mod with errOld := halErrorCode }, evs1 ++ evs2)
  else (mod, [])

/-- CO_CANtxBufferInit (lines 366-392).  Returns the new module state (the
module pointer's referent) and the configured slot that the returned
pointer refers to, none when NULL is returned. -/
def CO_CANtxBufferInit (modOpt : Option CO_CANmodule) (index ident : Nat)
    (rtr : Bool) (noOfBytes : Nat) (syncFlag : Bool) :
    Option CO_CANmodule × Option CO_CANtx :=
  match modOpt with
  | none => (none, none)
  | some mod =>
      if index < mod.txArray.length then
        let old := txSlot mod.txArray index
        let buffer : CO_CANtx :=
          { old with
            ident := if rtr then ((ident % 65536) * 4) ||| 2
                     else (ident % 65536) * 4,
            DLC := noOfBytes, bufferFull := false, syncFlag := syncFlag }
        (some { mod with txArray := mod.txArray.set index buffer }, some buffer)
      else (some mod, none)

/-- Concrete transmit slot used by witnesses: full, sync-tagged. -/
def txFullSync : CO_CANtx := ⟨0, 0, [], true, true⟩

/-- Concrete transmit slot used by witnesses: full, not sync-tagged. -/
def txFullNoSync : CO_CANtx := ⟨0, 0, [], true, false⟩

/-- Concrete transmit slot used by witnesses: empty. -/
def txEmptySlot : CO_CANtx := ⟨0, 0, [], false, false⟩

/-- Builder for concrete module states used by witnesses and
counterexamples. -/
def mkModule (tx : List CO_CANtx) (cnt : Nat)
    (inhibit first normal : Bool) (eo : Nat) : CO_CANmodule :=
  { rxArray := [], txArray := tx, CANnormal := normal, useCANrxFilters := false,
    bufferInhibitFlag := inhibit, firstCANtxMessage := first,
    CANtxCount := cnt, errOld := eo }

/-- Concrete receive entry used by witnesses: identifier 0x123 packed as
0x123 << 2 = 1164, mask 0x7FF packed with the forced RTR care bit = 8190,
handler tag 7, object tag 42. -/
def demoRxEntry : CO_CANrx := { ident := 1164, mask := 8190, object := 42, pFunct := some 7 }

/-- Concrete received frame with identifier 0x123, data frame. -/
def demoMsg : CO_CANrxMsg := { StdId := 291, RTR := 0, DLC := 0, data := [] }

/-- Concrete received frame with identifier 0x124, data frame. -/
def demoMsg2 : CO_CANrxMsg := { StdId := 292, RTR := 0, DLC := 0, data := [] }

/-- The receive scan returns the matching entry at the returned index, and
no earlier entry matches. -/
theorem rxScan_some_spec (msg : Nat) :
    ∀ (l : List CO_CANrx) (i : Nat) (e : CO_CANrx),
      rxScan msg l = some (i, e) →
      l.get? i = some e ∧ rxMatch msg e = true ∧
        ∀ j ej, j < i → l.get? j = some ej → rxMatch msg ej = false := by
  intro l
  induction l with
  | nil => intro i e h; simp [rxScan] at h
  | cons a rest ih =>
      intro i e h
      by_cases hm : rxMatch msg a = true
      · rw [rxScan, if_pos hm] at h
        simp only [Option.some.injEq, Prod.mk.injEq] at h
        obtain ⟨hi, he⟩ := h
        subst hi; subst he
        exact ⟨rfl, hm, fun j ej hj _ => absurd hj (Nat.not_lt_zero j)⟩
      · rw [rxScan, if_neg hm] at h
        rw [Option.map_eq_some'] at h
        obtain ⟨⟨i', e'⟩, hp, hpe⟩ := h
        simp only [Prod.mk.injEq] at hpe
        obtain ⟨hi, he⟩ := hpe
        subst hi; subst he
        obtain ⟨h1, h2, h3⟩ := ih i' e' hp
        refine ⟨h1, h2, ?_⟩
        intro j ej hj hget
        cases j with
        | zero =>
            simp only [List.get?] at hget
            cases hget
            exact Bool.not_eq_true _ ▸ hm
        | succ k =>
            exact h3 k ej (Nat.lt_of_succ_lt_succ hj) hget

/-- When the receive scan finds nothing, no entry matches. -/
theorem rxScan_none_spec (msg : Nat) :
    ∀ (l : List CO_CANrx), rxScan msg l = none →
      ∀ e ∈ l, rxMatch msg e = false := by
  intro l
  induction l with
  | nil => intro _ e he; cases he
  | cons a rest ih =>
      intro h e he
      by_cases hm : rxMatch msg a = true
      · rw [rxScan, if_pos hm] at h; cases h
      · rw [rxScan, if_neg hm] at h
        rw [Option.map_eq_none'] at h
        cases he with
        | head => exact Bool.not_eq_true _ ▸ hm
        | tail _ hmem => exact ih h e hmem

/-- If some entry matches, the receive scan finds one. -/
theorem rxScan_isSome_of_match (msg : Nat) (l : List CO_CANrx) (e : CO_CANrx)
    (he : e ∈ l) (hm : rxMatch msg e = true) :
    (rxScan msg l).isSome = true := by
  cases hs : rxScan msg l with
  | some p => rfl
  | none => rw [rxScan_none_spec msg l hs e he] at hm; cases hm

/-- The first-full scan returns an index holding a full slot, with no full
slot before it. -/
theorem firstFullIdx_some_spec :
    ∀ (l : List CO_CANtx) (i : Nat), firstFullIdx l = some i →
      i < l.length ∧ (txSlot l i).bufferFull = true ∧
        ∀ j, j < i → (txSlot l j).bufferFull = false := by
  intro l
  induction l with
  | nil => intro i h; simp [firstFullIdx] at h
  | cons b rest ih =>
      intro i h
      cases hb : b.bufferFull with
      | true =>
          rw [firstFullIdx, if_pos hb] at h
          injection h with h'
          subst h'
          exact ⟨Nat.succ_pos _, hb, fun j hj => absurd hj (Nat.not_lt_zero j)⟩
      | false =>
          rw [firstFullIdx, if_neg (by simp [hb])] at h
          rw [Option.map_eq_some'] at h
          obtain ⟨i', hi', rfl⟩ := h
          obtain ⟨h1, h2, h3⟩ := ih i' hi'
          refine ⟨Nat.succ_lt_succ h1, h2, ?_⟩
          intro j hj
          cases j with
          | zero => exact hb
          | succ k => exact h3 k (Nat.lt_of_succ_lt_succ hj)

/-- When the first-full scan fails, no slot is full. -/
theorem firstFullIdx_none_spec :
    ∀ (l : List CO_CANtx), firstFullIdx l = none →
      ∀ b ∈ l, b.bufferFull = false := by
  intro l
  induction l with
  | nil => intro _ b hb; cases hb
  | cons a rest ih =>
      intro h b hb
      cases ha : a.bufferFull with
      | true => rw [firstFullIdx, if_pos ha] at h; cases h
      | false =>
          rw [firstFullIdx, if_neg (by simp [ha])] at h
          rw [Option.map_eq_none'] at h
          cases hb with
          | head => exact ha
          | tail _ hmem => exact ih h b hmem

/-- A list with no full slot has fullCount zero. -/
theorem fullCount_eq_zero (l : List CO_CANtx)
    (h : ∀ b ∈ l, b.bufferFull = false) : fullCount l = 0 := by
  induction l with
  | nil => rfl
  | cons a rest ih =>
      have ha := h a (List.mem_cons_self a rest)
      have hr := ih fun b hb => h b (List.mem_cons_of_mem a hb)
      simp [fullCount, ha, hr]

/-- Updating slot i exchanges that slot's contribution to fullCount. -/
theorem fullCount_set_add :
    ∀ (l : List CO_CANtx) (i : Nat) (b : CO_CANtx), i < l.length →
      fullCount (l.set i b) + (if (txSlot l i).bufferFull then 1 else 0)
        = fullCount l + (if b.bufferFull then 1 else 0) := by
  intro l
  induction l with
  | nil => intro i b h; simp at h
  | cons a rest ih =>
      intro i b h
      cases i with
      | zero =>
          simp only [txSlot, List.set, List.getD_cons_zero, fullCount]
          omega
      | succ k =>
          have hk : k < rest.length := by simpa using h
          have hrec := ih k b hk
          simp only [txSlot] at hrec
          simp only [txSlot, List.set, List.getD_cons_succ, fullCount]
          omega

/-- A full slot at a valid index makes fullCount positive. -/
theorem fullCount_pos_of_getD :
    ∀ (l : List CO_CANtx) (i : Nat), i < l.length →
      (txSlot l i).bufferFull = true → 1 ≤ fullCount l := by
  intro l
  induction l with
  | nil => intro i h; simp at h
  | cons a rest ih =>
      intro i h hf
      cases i with
      | zero =>
          rw [txSlot, List.getD_cons_zero] at hf
          simp [fullCount, hf]
      | succ k =>
          rw [txSlot, List.getD_cons_succ] at hf
          have := ih k (by simpa using h) hf
          rw [fullCount]
          omega

/-- Clearing every full-and-sync slot removes exactly syncFullCount from
fullCount. -/
theorem fullCount_map_clearSync :
    ∀ (l : List CO_CANtx),
      fullCount (l.map clearSyncEntry) + syncFullCount l = fullCount l := by
  intro l
  induction l with
  | nil => rfl
  | cons a rest ih =>
      by_cases ha : a.bufferFull = true ∧ a.syncFlag = true
      · simp [List.map_cons, fullCount, syncFullCount, clearSyncEntry, ha,
          ha.1, ha.2]
        omega
      · simp [List.map_cons, fullCount, syncFullCount, clearSyncEntry, ha]
        omega

/-- syncFullCount never exceeds fullCount. -/
theorem syncFullCount_le (l : List CO_CANtx) : syncFullCount l ≤ fullCount l := by
  have := fullCount_map_clearSync l
  omega

/-- When no slot is full-and-sync, clearing them is the identity. -/
theorem map_clearSync_id :
    ∀ (l : List CO_CANtx), syncFullCount l = 0 → l.map clearSyncEntry = l := by
  intro l
  induction l with
  | nil => intro _; rfl
  | cons a rest ih =>
      intro h
      rw [syncFullCount] at h
      by_cases ha : a.bufferFull = true ∧ a.syncFlag = true
      · rw [if_pos ha] at h; omega
      · rw [if_neg ha] at h
        have hr : syncFullCount rest = 0 := by omega
        simp [clearSyncEntry, ha, ih hr]

/-- Closed form of the deletion loop under the counting invariant. -/
theorem clearSyncLoop_spec :
    ∀ (l : List CO_CANtx) (c : Nat), syncFullCount l ≤ c → c < 65536 →
      (clearSyncLoop l c).1 = l.map clearSyncEntry ∧
      (clearSyncLoop l c).2.1 = c - syncFullCount l ∧
      ((clearSyncLoop l c).2.2 = true ↔ syncFullCount l ≠ 0) := by
  intro l
  induction l with
  | nil =>
      intro c h1 h2
      simp [clearSyncLoop, syncFullCount]
  | cons a rest ih =>
      intro c h1 h2
      rw [syncFullCount] at h1
      by_cases ha : a.bufferFull = true ∧ a.syncFlag = true
      · rw [if_pos ha] at h1
        have hmod : (c + 65535) % 65536 = c - 1 := by omega
        have hrec := ih (c - 1) (by omega) (by omega)
        rw [clearSyncLoop, if_pos ha, hmod]
        refine ⟨?_, ?_, ?_⟩
        · simp only [List.map_cons, clearSyncEntry, if_pos ha]
          exact congrArg _ hrec.1
        · rw [hrec.2.1, syncFullCount, if_pos ha]
          omega
        · simp [syncFullCount, if_pos ha]
      · rw [if_neg ha] at h1
        have hrec := ih c (by omega) h2
        rw [clearSyncLoop, if_neg ha]
        refine ⟨?_, ?_, ?_⟩
        · simp only [List.map_cons, clearSyncEntry, if_neg ha]
          exact congrArg _ hrec.1
        · rw [hrec.2.1, syncFullCount, if_neg ha]
          omega
        · rw [hrec.2.2, syncFullCount, if_neg ha]
          omega

/-- Reading back the slot just written. -/
theorem getD_set_self :
    ∀ (l : List CO_CANtx) (i : Nat) (b : CO_CANtx), i < l.length →
      txSlot (l.set i b) i = b := by
  intro l
  induction l with
  | nil => intro i b h; simp at h
  | cons a rest ih =>
      intro i b h
      cases i with
      | zero => rfl
      | succ k => exact ih k b (by simpa using h)

/-- Re-marking a slot full that is already full leaves it unchanged. -/
theorem set_bufferFull_self (b : CO_CANtx) (h : b.bufferFull = true) :
    ({ b with bufferFull := true } : CO_CANtx) = b := by
  cases b
  subst h
  rfl

/-- A slot read at a valid index is an element of the array. -/
theorem txSlot_mem :
    ∀ (l : List CO_CANtx) (i : Nat), i < l.length → txSlot l i ∈ l := by
  intro l
  induction l with
  | nil => intro i h; simp at h
  | cons a rest ih =>
      intro i h
      cases i with
      | zero => exact List.mem_cons_self _ _
      | succ k => exact List.mem_cons_of_mem _ (ih k (by simpa using h))

/-- The bit-rate table rejects exactly the rates outside the supported
set. -/
theorem supportedPrescaler_none_iff (bitRate : Nat) :
    supportedPrescaler bitRate = none ↔
      ¬(bitRate = 10 ∨ bitRate = 20 ∨ bitRate = 50 ∨ bitRate = 100 ∨
        bitRate = 125 ∨ bitRate = 250 ∨ bitRate = 500 ∨ bitRate = 1000) := by
  unfold supportedPrescaler
  split_ifs with h1 h2 h3 h4 h5 h6 h7 h8 <;> simp_all

/-- Every transmit entry zeroed by CO_CANmodule_init has its full flag
cleared. -/
theorem init_tx_cleared (l : List CO_CANtx) :
    ∀ b ∈ l.map (fun b => { b with bufferFull := false }), b.bufferFull = false := by
  intro b hb
  obtain ⟨b0, -, rfl⟩ := List.mem_map.mp hb
  rfl

/-- Every receive entry zeroed by CO_CANmodule_init has ident 0 and no
handler. -/
theorem init_rx_cleared (l : List CO_CANrx) :
    ∀ e ∈ l.map (fun e => { e with ident := 0, pFunct := none }),
      e.ident = 0 ∧ e.pFunct = none := by
  intro e he
  obtain ⟨e0, -, rfl⟩ := List.mem_map.mp he
  exact ⟨rfl, rfl⟩

/-- C1: for every received frame and configured RxEntry array (every entry
carrying a handler), CO_CANinterrupt_Rx packs the frame as
(StdId << 2) | RTR, scans the array in index order, declares a match for
the first entry with ((packed ^ ident) & mask) == 0, invokes exactly that
entry's handler once with the frame and that entry's opaque object,
invokes no other entry's handler, and invokes no handler at all when no
entry matches. -/
theorem rx_dispatch_spec (rxArray : List CO_CANrx) (m : CO_CANrxMsg)
    (hconf : ∀ e ∈ rxArray, e.pFunct.isSome = true) :
    (∀ i e, rxScan (rxPack m.StdId m.RTR) rxArray = some (i, e) →
       rxArray.get? i = some e ∧
       rxMatch (rxPack m.StdId m.RTR) e = true ∧
       (∀ j ej, j < i → rxArray.get? j = some ej →
          rxMatch (rxPack m.StdId m.RTR) ej = false) ∧
       ∃ f, e.pFunct = some f ∧
         CO_CANinterrupt_Rx rxArray m = [⟨f, e.object, m⟩]) ∧
    ((∀ e ∈ rxArray, rxMatch (rxPack m.StdId m.RTR) e = false) →
       CO_CANinterrupt_Rx rxArray m = []) := by
  constructor
  · intro i e hscan
    obtain ⟨h1, h2, h3⟩ := rxScan_some_spec _ rxArray i e hscan
    have hmem : e ∈ rxArray := List.get?_mem h1
    obtain ⟨f, hf⟩ := Option.isSome_iff_exists.mp (hconf e hmem)
    refine ⟨h1, h2, h3, f, hf, ?_⟩
    simp [CO_CANinterrupt_Rx, hscan, hf]
  · intro hnone
    have hs : rxScan (rxPack m.StdId m.RTR) rxArray = none := by
      cases hs : rxScan (rxPack m.StdId m.RTR) rxArray with
      | none => rfl
      | some p =>
          obtain ⟨i, e⟩ := p
          obtain ⟨h1, h2, -⟩ := rxScan_some_spec _ rxArray i e hs
          rw [hnone e (List.get?_mem h1)] at h2
          cases h2
    simp [CO_CANinterrupt_Rx, hs]

/-- Witness for C1: the frame 0x123 matches the single configured entry
and its handler fires once; the frame 0x124 matches nothing and no handler
fires. -/
theorem rx_dispatch_spec_witness :
    CO_CANinterrupt_Rx [demoRxEntry] demoMsg = [⟨7, 42, demoMsg⟩] ∧
    CO_CANinterrupt_Rx [demoRxEntry] demoMsg2 = [] := by
  have h := rx_dispatch_spec [demoRxEntry] demoMsg (by decide)
  have h2 := rx_dispatch_spec [demoRxEntry] demoMsg2 (by decide)
  constructor
  · obtain ⟨-, -, -, f, hf, htr⟩ := h.1 0 demoRxEntry (by decide)
    have hf7 : f = 7 := by
      have hh : (some f : Option Nat) = some 7 := by
        rw [← hf]; rfl
      exact Option.some.inj hh
    rw [htr, hf7]
    rfl
  · exact h2.2 (by decide)

/-- C2 counterexample: from a state where CANtxCount equals the number of
full slots (one full slot, count 1), calling CO_CANsend on that already
full slot increments CANtxCount without changing any bufferFull flag, so
the claimed equality does not survive the call. -/
theorem send_full_slot_breaks_equality_cex :
    (mkModule [txFullNoSync] 1 false false true 0).CANtxCount
      = fullCount (mkModule [txFullNoSync] 1 false false true 0).txArray ∧
    ¬ ((CO_CANsend (mkModule [txFullNoSync] 1 false false true 0) 0 true true).1.CANtxCount
        = fullCount
            (CO_CANsend (mkModule [txFullNoSync] 1 false false true 0) 0 true true).1.txArray) := by
  decide

/-- C2 (amended): the equality CANtxCount = number of full slots is
preserved by CO_CANpolling_Tx and CO_CANclearPendingSyncPDOs, and by
CO_CANsend whenever the target slot is not already full; when CO_CANsend
is called on an already-full slot, CANtxCount is incremented while every
bufferFull flag is unchanged, leaving the counter one above the number of
full slots. -/
theorem tx_count_equality_spec (mod : CO_CANmodule) (bufIdx : Nat)
    (mailboxFree halOk pollFree pollOk : Bool)
    (hinv : mod.CANtxCount = fullCount mod.txArray)
    (hidx : bufIdx < mod.txArray.length)
    (hbound : mod.CANtxCount < 65535) :
    ((txSlot mod.txArray bufIdx).bufferFull = false →
       (CO_CANsend mod bufIdx mailboxFree halOk).1.CANtxCount
         = fullCount (CO_CANsend mod bufIdx mailboxFree halOk).1.txArray) ∧
    ((txSlot mod.txArray bufIdx).bufferFull = true →
       (CO_CANsend mod bufIdx mailboxFree halOk).1.CANtxCount
         = fullCount (CO_CANsend mod bufIdx mailboxFree halOk).1.txArray + 1) ∧
    ((CO_CANpolling_Tx mod pollFree pollOk).1.CANtxCount
       = fullCount (CO_CANpolling_Tx mod pollFree pollOk).1.txArray) ∧
    ((CO_CANclearPendingSyncPDOs mod).1.CANtxCount
       = fullCount (CO_CANclearPendingSyncPDOs mod).1.txArray) := by
  refine ⟨?_, ?_, ?_, ?_⟩
  · intro hful
    by_cases hc : mod.CANtxCount = 0 ∧ mailboxFree = true
    · simp only [CO_CANsend, if_pos hc]
      exact hinv
    · have hset := fullCount_set_add mod.txArray bufIdx
        { txSlot mod.txArray bufIdx with bufferFull := true } hidx
      rw [hful] at hset
      simp at hset
      simp only [CO_CANsend, if_neg hc]
      omega
  · intro hful
    have hpos := fullCount_pos_of_getD mod.txArray bufIdx hidx hful
    have hc : ¬(mod.CANtxCount = 0 ∧ mailboxFree = true) := by
      intro hcc; omega
    have hset := fullCount_set_add mod.txArray bufIdx
      { txSlot mod.txArray bufIdx with bufferFull := true } hidx
    rw [hful] at hset
    simp at hset
    simp only [CO_CANsend, if_neg hc]
    omega
  · by_cases hpf : pollFree = true
    · subst hpf
      by_cases hcnt : 0 < mod.CANtxCount
      · cases hff : firstFullIdx mod.txArray with
        | none =>
            have hz := fullCount_eq_zero mod.txArray (firstFullIdx_none_spec _ hff)
            simp [CO_CANpolling_Tx, hcnt, hff, hz]
        | some i =>
            obtain ⟨hilen, hifull, -⟩ := firstFullIdx_some_spec mod.txArray i hff
            have hpos := fullCount_pos_of_getD mod.txArray i hilen hifull
            have hset := fullCount_set_add mod.txArray i
              { txSlot mod.txArray i with bufferFull := false } hilen
            rw [hifull] at hset
            simp at hset
            cases halOk2 : pollOk with
            | true =>
                have hmod : (mod.CANtxCount + 65535) % 65536 = mod.CANtxCount - 1 := by
                  omega
                simp [CO_CANpolling_Tx, hcnt, hff, hmod]
                omega
            | false =>
                simp [CO_CANpolling_Tx, hcnt, hff]
                omega
      · simp [CO_CANpolling_Tx, hcnt]
        omega
    · simp [CO_CANpolling_Tx, hpf]
      omega
  · by_cases hz : mod.CANtxCount ≠ 0
    · have hle : syncFullCount mod.txArray ≤ mod.CANtxCount := by
        have := syncFullCount_le mod.txArray
        omega
      have hbnd : mod.CANtxCount < 65536 := by omega
      obtain ⟨hl1, hl2, -⟩ := clearSyncLoop_spec mod.txArray mod.CANtxCount hle hbnd
      have hmap := fullCount_map_clearSync mod.txArray
      simp only [CO_CANclearPendingSyncPDOs, if_pos hz]
      rw [hl1, hl2]
      omega
    · have hz0 : mod.CANtxCount = 0 := by omega
      simp only [CO_CANclearPendingSyncPDOs, if_neg hz]
      exact hinv

/-- Witness for C2: queuing into an empty slot while no mailbox is free
preserves the counter/flag equality. -/
theorem tx_count_equality_spec_witness :
    (CO_CANsend (mkModule [txEmptySlot] 0 false false true 0) 0 false true).1.CANtxCount
      = fullCount
          (CO_CANsend (mkModule [txEmptySlot] 0 false false true 0) 0 false true).1.txArray := by
  have h := tx_count_equality_spec (mkModule [txEmptySlot] 0 false false true 0)
    0 false true false true (by decide) (by decide) (by decide)
  exact h.1 (by decide)

/-- C3: under the count invariant (the number of full slots never exceeds
CANtxCount), CO_CANsend returns CO_ERROR_TX_OVERFLOW and reports a
transmit-overflow fault exactly when called on a slot whose bufferFull
flag is already set, except that the report (never the return value) is
suppressed while firstCANtxMessage is still true; the queued slot's
contents are not replaced in the overflow case. -/
theorem send_overflow_spec (mod : CO_CANmodule) (bufIdx : Nat)
    (mailboxFree halOk : Bool)
    (hge : fullCount mod.txArray ≤ mod.CANtxCount)
    (hidx : bufIdx < mod.txArray.length) :
    ((txSlot mod.txArray bufIdx).bufferFull = true →
       (CO_CANsend mod bufIdx mailboxFree halOk).2.1
         = CO_ReturnError.CO_ERROR_TX_OVERFLOW ∧
       (mod.firstCANtxMessage = false →
          (CO_CANsend mod bufIdx mailboxFree halOk).2.2
            = [EmEvent.report CO_EM_CAN_TX_OVERFLOW CO_EMC_CAN_OVERRUN
                 (txSlot mod.txArray bufIdx).ident]) ∧
       (mod.firstCANtxMessage = true →
          (CO_CANsend mod bufIdx mailboxFree halOk).2.2 = []) ∧
       txSlot (CO_CANsend mod bufIdx mailboxFree halOk).1.txArray bufIdx
         = txSlot mod.txArray bufIdx) ∧
    ((txSlot mod.txArray bufIdx).bufferFull = false →
       (CO_CANsend mod bufIdx mailboxFree halOk).2.1
         ≠ CO_ReturnError.CO_ERROR_TX_OVERFLOW ∧
       (CO_CANsend mod bufIdx mailboxFree halOk).2.2 = []) := by
  constructor
  · intro hful
    have hpos := fullCount_pos_of_getD mod.txArray bufIdx hidx hful
    have hc : ¬(mod.CANtxCount = 0 ∧ mailboxFree = true) := by
      intro hc; omega
    refine ⟨?_, ?_, ?_, ?_⟩
    · simp [CO_CANsend, if_neg hc, hful]
    · intro hfst; simp [CO_CANsend, if_neg hc, hful, hfst]
    · intro hfst; simp [CO_CANsend, if_neg hc, hful, hfst]
    · have hget := getD_set_self mod.txArray bufIdx
        { txSlot mod.txArray bufIdx with bufferFull := true } hidx
      have hsame := set_bufferFull_self (txSlot mod.txArray bufIdx) hful
      simp only [CO_CANsend, if_neg hc]
      rw [hget, hsame]
  · intro hful
    by_cases hc : mod.CANtxCount = 0 ∧ mailboxFree = true
    · cases hok : halOk with
      | true => simp [CO_CANsend, hc, hful]
      | false => simp [CO_CANsend, hc, hful]
    · simp [CO_CANsend, if_neg hc, hful]

/-- Witness for C3: sending on an already-full slot after the first
message epoch returns the overflow error and reports the overflow fault. -/
theorem send_overflow_spec_witness :
    (CO_CANsend (mkModule [txFullNoSync] 1 false false true 0) 0 true true).2.1
      = CO_ReturnError.CO_ERROR_TX_OVERFLOW ∧
    (CO_CANsend (mkModule [txFullNoSync] 1 false false true 0) 0 true true).2.2
      = [EmEvent.report CO_EM_CAN_TX_OVERFLOW CO_EMC_CAN_OVERRUN 0] := by
  have h := (send_overflow_spec (mkModule [txFullNoSync] 1 false false true 0)
    0 true true (by decide) (by decide)).1 (by decide)
  exact ⟨h.1, h.2.1 rfl⟩

/-- C4 counterexample: from the state with one full sync-tagged slot and
CANtxCount = 1 (no inhibit-flag abort), CO_CANclearPendingSyncPDOs performs
exactly one deletion (the counter drops from 1 to 0 and one slot is
cleared), yet the single fault report carries auxiliary datum 2, not the
total number of deletions 1 — tpdoDeleted is assigned the code 2, never
incremented. -/
theorem clear_sync_aux_cex :
    (CO_CANclearPendingSyncPDOs (mkModule [txFullSync] 1 false false true 0)).1.CANtxCount = 0 ∧
    (CO_CANclearPendingSyncPDOs (mkModule [txFullSync] 1 false false true 0)).1.txArray
      = [⟨0, 0, [], false, true⟩] ∧
    (CO_CANclearPendingSyncPDOs (mkModule [txFullSync] 1 false false true 0)).2
      = [EmEvent.report CO_EM_TPDO_OUTSIDE_WINDOW CO_EMC_COMMUNICATION 2] ∧
    (2 : Nat) ≠ 1 := by
  decide

/-- C4 (amended): under the count invariant, CO_CANclearPendingSyncPDOs
clears bufferFull on every entry with bufferFull and syncFlag both set,
decrements CANtxCount by exactly the number of entries so cleared, clears
the inhibit flag, and makes exactly one fault report when any deletion
occurred — but its auxiliary datum is the code 2 when any queued entry was
cleared and 1 when only the inhibit-flag abort occurred, not the total
number of deletions. -/
theorem clear_sync_spec (mod : CO_CANmodule)
    (hge : fullCount mod.txArray ≤ mod.CANtxCount)
    (hlt : mod.CANtxCount < 65536) :
    (CO_CANclearPendingSyncPDOs mod).1.txArray = mod.txArray.map clearSyncEntry ∧
    (CO_CANclearPendingSyncPDOs mod).1.CANtxCount
      = mod.CANtxCount - syncFullCount mod.txArray ∧
    (CO_CANclearPendingSyncPDOs mod).1.bufferInhibitFlag = false ∧
    (CO_CANclearPendingSyncPDOs mod).2
      = (if syncFullCount mod.txArray ≠ 0 then
           [EmEvent.report CO_EM_TPDO_OUTSIDE_WINDOW CO_EMC_COMMUNICATION 2]
         else if mod.bufferInhibitFlag = true then
           [EmEvent.report CO_EM_TPDO_OUTSIDE_WINDOW CO_EMC_COMMUNICATION 1]
         else []) := by
  by_cases hz : mod.CANtxCount ≠ 0
  · have hle : syncFullCount mod.txArray ≤ mod.CANtxCount := by
      have := syncFullCount_le mod.txArray
      omega
    obtain ⟨hl1, hl2, hl3⟩ := clearSyncLoop_spec mod.txArray mod.CANtxCount hle hlt
    by_cases hs : syncFullCount mod.txArray = 0
    · have hb : (clearSyncLoop mod.txArray mod.CANtxCount).2.2 = false := by
        cases hbv : (clearSyncLoop mod.txArray mod.CANtxCount).2.2 with
        | false => rfl
        | true => exact absurd (hl3.mp hbv) (by omega)
      simp only [CO_CANclearPendingSyncPDOs, if_pos hz]
      refine ⟨hl1, hl2, by trivial, ?_⟩
      rw [hb]
      cases hib : mod.bufferInhibitFlag with
      | true => simp [hs, hib]
      | false => simp [hs, hib]
    · have hb : (clearSyncLoop mod.txArray mod.CANtxCount).2.2 = true := hl3.mpr hs
      simp only [CO_CANclearPendingSyncPDOs, if_pos hz]
      refine ⟨hl1, hl2, by trivial, ?_⟩
      rw [hb]
      simp [hs]
  · have hz0 : mod.CANtxCount = 0 := by omega
    have hf0 : fullCount mod.txArray = 0 := by omega
    have hs0 : syncFullCount mod.txArray = 0 := by
      have := syncFullCount_le mod.txArray
      omega
    simp only [CO_CANclearPendingSyncPDOs, if_neg hz]
    refine ⟨(map_clearSync_id mod.txArray hs0).symm, by omega, by trivial, ?_⟩
    cases hib : mod.bufferInhibitFlag with
    | true => simp [hs0, hib]
    | false => simp [hs0, hib]

/-- Witness for C4: with one full sync slot, one full non-sync slot, count
2 and the inhibit flag set, the call clears exactly the sync slot, drops
the counter to 1 and reports once with datum 2. -/
theorem clear_sync_spec_witness :
    (CO_CANclearPendingSyncPDOs (mkModule [txFullSync, txFullNoSync] 2 true false true 0)).1.CANtxCount = 1 ∧
    (CO_CANclearPendingSyncPDOs (mkModule [txFullSync, txFullNoSync] 2 true false true 0)).2
      = [EmEvent.report CO_EM_TPDO_OUTSIDE_WINDOW CO_EMC_COMMUNICATION 2] := by
  have h := clear_sync_spec (mkModule [txFullSync, txFullNoSync] 2 true false true 0)
    (by decide) (by decide)
  constructor
  · rw [h.2.1]
    decide
  · rw [h.2.2.2]
    decide

/-- C5: when a hardware mailbox is free, CO_CANpolling_Tx clears
firstCANtxMessage and bufferInhibitFlag; if CANtxCount = 0 it does nothing
else; if CANtxCount > 0 it hands to hardware the full slot with the lowest
index, sets bufferInhibitFlag to that slot's syncFlag, clears bufferFull
and decrements CANtxCount exactly when the hardware send succeeds and
leaves the slot queued when it fails; and when no slot is full it resets
CANtxCount to 0. -/
theorem polling_tx_spec (mod : CO_CANmodule) (halOk : Bool)
    (hlt : mod.CANtxCount < 65536) :
    (CO_CANpolling_Tx mod true halOk).1.firstCANtxMessage = false ∧
    (mod.CANtxCount = 0 →
       (CO_CANpolling_Tx mod true halOk).1
         = { mod with firstCANtxMessage := false, bufferInhibitFlag := false } ∧
       (CO_CANpolling_Tx mod true halOk).2 = none) ∧
    (0 < mod.CANtxCount →
       (∀ i, firstFullIdx mod.txArray = some i →
          (CO_CANpolling_Tx mod true halOk).2 = some i ∧
          (txSlot mod.txArray i).bufferFull = true ∧
          (∀ j, j < i → (txSlot mod.txArray j).bufferFull = false) ∧
          (CO_CANpolling_Tx mod true halOk).1.bufferInhibitFlag
            = (txSlot mod.txArray i).syncFlag ∧
          (halOk = true →
             (CO_CANpolling_Tx mod true halOk).1.txArray
               = mod.txArray.set i { txSlot mod.txArray i with bufferFull := false } ∧
             (CO_CANpolling_Tx mod true halOk).1.CANtxCount = mod.CANtxCount - 1) ∧
          (halOk = false →
             (CO_CANpolling_Tx mod true halOk).1.txArray = mod.txArray ∧
             (CO_CANpolling_Tx mod true halOk).1.CANtxCount = mod.CANtxCount)) ∧
       (firstFullIdx mod.txArray = none →
          (CO_CANpolling_Tx mod true halOk).1.CANtxCount = 0 ∧
          (CO_CANpolling_Tx mod true halOk).1.txArray = mod.txArray)) ∧
    ((∀ b ∈ mod.txArray, b.bufferFull = false) →
       (CO_CANpolling_Tx mod true halOk).1.CANtxCount = 0) := by
  refine ⟨?_, ?_, ?_, ?_⟩
  · by_cases hcnt : 0 < mod.CANtxCount
    · cases hff : firstFullIdx mod.txArray with
      | none => simp [CO_CANpolling_Tx, hcnt, hff]
      | some i =>
          cases hok : halOk with
          | true => simp [CO_CANpolling_Tx, hcnt, hff]
          | false => simp [CO_CANpolling_Tx, hcnt, hff]
    · simp [CO_CANpolling_Tx, hcnt]
  · intro h0
    have hcnt : ¬(0 < mod.CANtxCount) := by omega
    constructor
    · simp [CO_CANpolling_Tx, hcnt]
    · simp [CO_CANpolling_Tx, hcnt]
  · intro hcnt
    constructor
    · intro i hff
      obtain ⟨hilen, hifull, hmin⟩ := firstFullIdx_some_spec mod.txArray i hff
      refine ⟨?_, hifull, hmin, ?_, ?_, ?_⟩
      · cases hok : halOk with
        | true => simp [CO_CANpolling_Tx, hcnt, hff]
        | false => simp [CO_CANpolling_Tx, hcnt, hff]
      · cases hok : halOk with
        | true => simp [CO_CANpolling_Tx, hcnt, hff]
        | false => simp [CO_CANpolling_Tx, hcnt, hff]
      · intro hok
        subst hok
        have hmod : (mod.CANtxCount + 65535) % 65536 = mod.CANtxCount - 1 := by
          omega
        constructor
        · simp [CO_CANpolling_Tx, hcnt, hff]
        · simp [CO_CANpolling_Tx, hcnt, hff, hmod]
      · intro hok
        subst hok
        constructor
        · simp [CO_CANpolling_Tx, hcnt, hff]
        · simp [CO_CANpolling_Tx, hcnt, hff]
    · intro hff
      constructor
      · simp [CO_CANpolling_Tx, hcnt, hff]
      · simp [CO_CANpolling_Tx, hcnt, hff]
  · intro hall
    by_cases hcnt : 0 < mod.CANtxCount
    · have hff : firstFullIdx mod.txArray = none := by
        cases hffv : firstFullIdx mod.txArray with
        | none => rfl
        | some i =>
            obtain ⟨hilen, hifull, -⟩ := firstFullIdx_some_spec mod.txArray i hffv
            rw [hall (txSlot mod.txArray i) (txSlot_mem mod.txArray i hilen)] at hifull
            cases hifull
      simp [CO_CANpolling_Tx, hcnt, hff]
    · simp [CO_CANpolling_Tx, hcnt]
      omega

/-- Witness for C5: with slot 0 empty and slot 1 full, a successful drain
hands slot 1 to hardware and zeroes the counter. -/
theorem polling_tx_spec_witness :
    (CO_CANpolling_Tx (mkModule [txEmptySlot, txFullNoSync] 1 false true true 0) true true).2
      = some 1 ∧
    (CO_CANpolling_Tx (mkModule [txEmptySlot, txFullNoSync] 1 false true true 0) true true).1.CANtxCount
      = 0 := by
  have h := polling_tx_spec (mkModule [txEmptySlot, txFullNoSync] 1 false true true 0)
    true (by decide)
  have h3 := (h.2.2.1 (by decide)).1 1 (by decide)
  refine ⟨h3.1, ?_⟩
  rw [(h3.2.2.2.2.1 rfl).2]
  decide

/-- C6 counterexample: with HAL_CAN_Start failing, CO_CANsetNormalMode
returns the hardware error yet still sets CANnormal, so the module does
transition to Normal on failure, contradicting the claim. -/
theorem set_normal_mode_cex :
    (mkModule [] 0 false true false 0).CANnormal = false ∧
    (CO_CANsetNormalMode (mkModule [] 0 false true false 0) false true).2
      = CO_ReturnError.CO_ERROR_HAL ∧
    (CO_CANsetNormalMode (mkModule [] 0 false true false 0) false true).1.CANnormal
      = true := by
  decide

/-- C6 (amended): CO_CANsetNormalMode returns CO_ERROR_NO exactly when both
the peripheral start and the notification enabling succeed and CO_ERROR_HAL
otherwise, but it sets CANnormal unconditionally — the module transitions
to Normal even when a hardware call fails. -/
theorem set_normal_mode_spec (mod : CO_CANmodule) (startOk notifOk : Bool) :
    (CO_CANsetNormalMode mod startOk notifOk).1 = { mod with CANnormal := true } ∧
    ((CO_CANsetNormalMode mod startOk notifOk).2 = CO_ReturnError.CO_ERROR_NO
       ↔ (startOk = true ∧ notifOk = true)) := by
  cases startOk <;> cases notifOk <;> simp [CO_CANsetNormalMode]

/-- Witness for C6 (amended): both calls succeeding yields CO_ERROR_NO. -/
theorem set_normal_mode_spec_witness :
    (CO_CANsetNormalMode (mkModule [] 0 false true false 0) true true).2
      = CO_ReturnError.CO_ERROR_NO :=
  (set_normal_mode_spec (mkModule [] 0 false true false 0) true true).2.mpr ⟨rfl, rfl⟩

/-- C7: CO_CANverifyErrors is a no-op — no fault report and no fault clear,
state unchanged — whenever the current error bitmask equals the previously
observed errOld; consequently a second consecutive call with an unchanged
bitmask never emits any emergency event. -/
theorem verify_errors_no_repeat (mod : CO_CANmodule) (halErrorCode : Nat)
    (p p1 p2 : Bool) :
    (mod.errOld = halErrorCode →
       CO_CANverifyErrors mod halErrorCode p = (mod, [])) ∧
    (CO_CANverifyErrors
        (CO_CANverifyErrors mod halErrorCode p1).1 halErrorCode p2).2 = [] := by
  constructor
  · intro h
    simp [CO_CANverifyErrors, h]
  · by_cases h : mod.errOld = halErrorCode
    · simp [CO_CANverifyErrors, h]
    · have h1 : (CO_CANverifyErrors mod halErrorCode p1).1.errOld = halErrorCode := by
        simp [CO_CANverifyErrors, h]
      rw [CO_CANverifyErrors, if_neg (not_not_intro h1)]

/-- Witness for C7: a call with the bitmask equal to errOld returns the
state unchanged and emits nothing. -/
theorem verify_errors_no_repeat_witness :
    CO_CANverifyErrors (mkModule [] 0 false false true 5) 5 true
      = (mkModule [] 0 false false true 5, []) :=
  (verify_errors_no_repeat (mkModule [] 0 false false true 5) 5 true true true).1 rfl

/-- C8: when the bitmask changes, the bus-off bit is clear and the "no
error" bit is set in the new bitmask, CO_CANverifyErrors issues a clear of
the bus-warning fault. -/
theorem verify_errors_noerror_clears_warning (mod : CO_CANmodule)
    (halErrorCode : Nat) (p : Bool)
    (hne : mod.errOld ≠ halErrorCode)
    (hbof : halErrorCode &&& HAL_CAN_ERROR_BOF = 0)
    (hnone : halErrorCode &&& HAL_CAN_ERROR_NONE ≠ 0) :
    EmEvent.reset CO_EM_CAN_BUS_WARNING halErrorCode
      ∈ (CO_CANverifyErrors mod halErrorCode p).2 := by
  simp [CO_CANverifyErrors, hne, hbof, hnone]

/-- Witness for C8: from errOld = 0 a transition to the bitmask consisting
of exactly the no-error bit emits a reset of the bus-warning fault. -/
theorem verify_errors_noerror_clears_warning_witness :
    EmEvent.reset CO_EM_CAN_BUS_WARNING HAL_CAN_ERROR_NONE
      ∈ (CO_CANverifyErrors (mkModule [] 0 false false true 0)
           HAL_CAN_ERROR_NONE false).2 :=
  verify_errors_noerror_clears_warning (mkModule [] 0 false false true 0)
    HAL_CAN_ERROR_NONE false (by decide) (by decide) (by decide)

/-- C9 counterexample: CO_CANmodule_init does not validate the HAL handle —
called with the handle absent but all other arguments valid and a supported
bit rate, it succeeds instead of returning CO_ERROR_ILLEGAL_ARGUMENT. -/
theorem init_missing_handle_cex :
    (CO_CANmodule_init false true (some []) (some []) 125 true).1
      = CO_ReturnError.CO_ERROR_NO ∧
    CO_ReturnError.CO_ERROR_NO ≠ CO_ReturnError.CO_ERROR_ILLEGAL_ARGUMENT := by
  decide

/-- C9 (amended): CO_CANmodule_init returns CO_ERROR_ILLEGAL_ARGUMENT
exactly when the module, rx array or tx array pointer is absent (the HAL
handle is not checked), CO_ERROR_ILLEGAL_BAUDRATE exactly when those
pointers are present but the bit rate is outside
{10, 20, 50, 100, 125, 250, 500, 1000} kbit/s, and CO_ERROR_NO exactly
when in addition the hardware re-initialization succeeds; any state it
leaves behind has zeroed entries and reset counters and flags. -/
theorem module_init_spec (moduleNull handleNull : Bool)
    (rxArr : Option (List CO_CANrx)) (txArr : Option (List CO_CANtx))
    (bitRate : Nat) (halInitOk : Bool) :
    ((CO_CANmodule_init moduleNull handleNull rxArr txArr bitRate halInitOk).1
        = CO_ReturnError.CO_ERROR_ILLEGAL_ARGUMENT
      ↔ (moduleNull = true ∨ rxArr = none ∨ txArr = none)) ∧
    ((CO_CANmodule_init moduleNull handleNull rxArr txArr bitRate halInitOk).1
        = CO_ReturnError.CO_ERROR_ILLEGAL_BAUDRATE
      ↔ (¬(moduleNull = true ∨ rxArr = none ∨ txArr = none) ∧
         supportedPrescaler bitRate = none)) ∧
    ((CO_CANmodule_init moduleNull handleNull rxArr txArr bitRate halInitOk).1
        = CO_ReturnError.CO_ERROR_NO
      ↔ (¬(moduleNull = true ∨ rxArr = none ∨ txArr = none) ∧
         supportedPrescaler bitRate ≠ none ∧ halInitOk = true)) ∧
    (supportedPrescaler bitRate = none
      ↔ ¬(bitRate = 10 ∨ bitRate = 20 ∨ bitRate = 50 ∨ bitRate = 100 ∨
          bitRate = 125 ∨ bitRate = 250 ∨ bitRate = 500 ∨ bitRate = 1000)) ∧
    (∀ m, (CO_CANmodule_init moduleNull handleNull rxArr txArr bitRate halInitOk).2
            = some m →
       m.CANtxCount = 0 ∧ m.firstCANtxMessage = true ∧ m.CANnormal = false ∧
       m.bufferInhibitFlag = false ∧ m.errOld = 0 ∧
       (∀ b ∈ m.txArray, b.bufferFull = false) ∧
       (∀ e ∈ m.rxArray, e.ident = 0 ∧ e.pFunct = none)) := by
  have hpiff := supportedPrescaler_none_iff bitRate
  by_cases hn : moduleNull = true ∨ rxArr = none ∨ txArr = none
  · simp only [CO_CANmodule_init, if_pos hn]
    refine ⟨by simp [hn], by simp [hn], by simp [hn], hpiff, ?_⟩
    intro m hm
    simp at hm
  · simp only [CO_CANmodule_init, if_neg hn]
    cases hp : supportedPrescaler bitRate with
    | none =>
        have hrhs := hpiff.mp hp
        refine ⟨by simp [hn], by simp [hn], by simp [hn], by simp [hrhs], ?_⟩
        intro m hm
        have hm2 := Option.some.inj hm
        subst hm2
        exact ⟨rfl, rfl, rfl, rfl, rfl, init_tx_cleared _, init_rx_cleared _⟩
    | some pr =>
        have hne2 : ¬(supportedPrescaler bitRate = none) := by
          rw [hp]
          simp
        have hrhs : bitRate = 10 ∨ bitRate = 20 ∨ bitRate = 50 ∨ bitRate = 100 ∨
            bitRate = 125 ∨ bitRate = 250 ∨ bitRate = 500 ∨ bitRate = 1000 := by
          by_contra hcon
          exact hne2 (hpiff.mpr hcon)
        cases hok : halInitOk with
        | true =>
            refine ⟨by simp [hn], by simp [hn], by simp [hn], by simp [hrhs], ?_⟩
            intro m hm
            have hm2 := Option.some.inj hm
            subst hm2
            exact ⟨rfl, rfl, rfl, rfl, rfl, init_tx_cleared _, init_rx_cleared _⟩
        | false =>
            refine ⟨by simp [hn], by simp [hn], by simp [hn], by simp [hrhs], ?_⟩
            intro m hm
            have hm2 := Option.some.inj hm
            subst hm2
            exact ⟨rfl, rfl, rfl, rfl, rfl, init_tx_cleared _, init_rx_cleared _⟩

/-- Witness for C9 (amended): valid pointers, 1000 kbit/s and a successful
hardware init yield CO_ERROR_NO. -/
theorem module_init_spec_witness :
    (CO_CANmodule_init false false (some []) (some []) 1000 true).1
      = CO_ReturnError.CO_ERROR_NO :=
  (module_init_spec false false (some []) (some []) 1000 true).2.2.1.mpr
    ⟨by decide, by decide, rfl⟩

/-- C10: CO_CANtxBufferInit returns NULL and leaves the module unchanged
when the module pointer is NULL or the index is not below txSize; with a
valid index it returns the slot at that index with its identifier and
length set, bufferFull cleared and syncFlag as requested, updating only
that slot. -/
theorem tx_buffer_init_spec (modOpt : Option CO_CANmodule) (index ident : Nat)
    (rtr : Bool) (noOfBytes : Nat) (syncFlag : Bool) :
    (modOpt = none →
       CO_CANtxBufferInit modOpt index ident rtr noOfBytes syncFlag = (none, none)) ∧
    (∀ mod0, modOpt = some mod0 → mod0.txArray.length ≤ index →
       CO_CANtxBufferInit modOpt index ident rtr noOfBytes syncFlag
         = (some mod0, none)) ∧
    (∀ mod0, modOpt = some mod0 → index < mod0.txArray.length →
       CO_CANtxBufferInit modOpt index ident rtr noOfBytes syncFlag
         = (some { mod0 with
               txArray := mod0.txArray.set index
                 { txSlot mod0.txArray index with
                   ident := if rtr then ((ident % 65536) * 4) ||| 2
                            else (ident % 65536) * 4,
                   DLC := noOfBytes, bufferFull := false, syncFlag := syncFlag } },
            some { txSlot mod0.txArray index with
                   ident := if rtr then ((ident % 65536) * 4) ||| 2
                            else (ident % 65536) * 4,
                   DLC := noOfBytes, bufferFull := false, syncFlag := syncFlag })) := by
  refine ⟨?_, ?_, ?_⟩
  · intro h
    subst h
    rfl
  · intro mod0 h hlen
    subst h
    have hnot : ¬(index < mod0.txArray.length) := by omega
    simp [CO_CANtxBufferInit, hnot]
  · intro mod0 h hidx
    subst h
    simp [CO_CANtxBufferInit, hidx]

/-- Witness for C10: configuring slot 0 of a one-slot module with
identifier 0x123 installs ident 0x123 << 2 = 1164, clears the full flag
and sets the sync flag. -/
theorem tx_buffer_init_spec_witness :
    CO_CANtxBufferInit (some (mkModule [txEmptySlot] 0 false true true 0))
        0 291 false 8 true
      = (some (mkModule [⟨1164, 8, [], false, true⟩] 0 false true true 0),
         some ⟨1164, 8, [], false, true⟩) := by
  have h := (tx_buffer_init_spec (some (mkModule [txEmptySlot] 0 false true true 0))
    0 291 false 8 true).2.2 (mkModule [txEmptySlot] 0 false true true 0) rfl (by decide)
  rw [h]
  decide

end CODriver
